import Mathlib

/-!
Verification of the annual cashflow projection engine of the
`ai_retirement_advisor` repository.

The engine is `calculate_retirement_cashflow` in `ai_retirement_advisor.py`
(together with its helper `calc_housing_expense`).  Python floats are
modelled as exact rationals `ℚ`, Python `int(x)` as truncation toward
zero, and the one raising arithmetic operation (the mortgage annuity
formula, whose denominator can be zero, and the present-value deflation
by `1 + inflation_rate/100`) as `Option` failure: a `none` result models a
`ZeroDivisionError` escaping the function before any row is returned.
-/

/-- Python `int(x)` on a real number: truncation toward zero. -/
def pyInt (x : ℚ) : ℤ := if 0 ≤ x then ⌊x⌋ else ⌈x⌉

/-- One entry of `lumpsum_list`: a dict `{"年齡": age, "金額": amount}`,
already parsed to an integer age and a numeric amount (the engine's
`int(entry["年齡"])` / `float(entry["金額"])` step). -/
structure Entry where
  age : ℤ
  amount : ℚ
deriving DecidableEq, Repr, Inhabited

/-- The housing mode string: `"租房"` (rent) or anything else (buy; the UI
passes `"購房"`). -/
inductive RentOrBuy where
  | rent : RentOrBuy
  | buy : RentOrBuy
deriving DecidableEq, Repr

/-- The scalar arguments of `calculate_retirement_cashflow`, in source
order. -/
structure Params where
  current_age : ℤ
  retirement_age : ℤ
  expected_lifespan : ℤ
  monthly_expense : ℚ
  rent_or_buy : RentOrBuy
  monthly_rent : ℚ
  buy_age : ℤ
  home_price : ℚ
  down_payment : ℚ
  loan_amount : ℚ
  loan_term : ℤ
  loan_rate : ℚ
  annual_salary : ℚ
  salary_growth : ℚ
  investable_assets : ℚ
  investment_return : ℚ
  inflation_rate : ℚ
  retirement_pension : ℚ
deriving DecidableEq, Repr

/-- One row appended to `data` (one per age): the eleven columns of the
resulting frame, in source order.  Columns produced through `int(...)`
are integers; `lumpsum_expense` and `cumulative_balance` are appended
raw. -/
structure Row where
  age : ℤ
  salary_income : ℤ
  investment_income : ℤ
  pension_income : ℤ
  total_income : ℤ
  living_expense : ℤ
  housing_expense : ℤ
  lumpsum_expense : ℚ
  total_expense : ℤ
  annual_balance : ℤ
  cumulative_balance : ℚ
deriving DecidableEq, Repr, Inhabited

/-- Lines 83–86: the level monthly mortgage payment.  `none` models the
`ZeroDivisionError` raised when the annuity denominator
`1 - (1 + lr_monthly) ** (-loan_term * 12)` is zero (and the degenerate
`0.0 ** negative` when `1 + lr_monthly == 0`). -/
def monthlyMortgage (loan_amount : ℚ) (loan_term : ℤ) (loan_rate : ℚ) : Option ℚ :=
  if 0 < loan_amount ∧ 0 < loan_term then
    let lr_monthly := loan_rate / 100 / 12
    if 1 + lr_monthly = 0 then none
    else
      let den := 1 - ((1 + lr_monthly) ^ (loan_term * 12).toNat)⁻¹
      if den = 0 then none
      else some (loan_amount * lr_monthly / den)
  else some 0

/-- Lines 56–68: `calc_housing_expense`. -/
def calc_housing_expense (age : ℤ) (rent_or_buy : RentOrBuy) (monthly_rent : ℚ)
    (buy_age : ℤ) (down_payment monthly_mortgage : ℚ) (loan_term : ℤ) : ℤ :=
  match rent_or_buy with
  | .rent => pyInt (monthly_rent * 12)
  | .buy =>
    if age < buy_age then pyInt (monthly_rent * 12)
    else if age = buy_age then pyInt (down_payment + monthly_mortgage * 12)
    else if buy_age < age ∧ age < buy_age + loan_term then pyInt (monthly_mortgage * 12)
    else 0

/-- Lines 89–98: build `lumpsum_map` (age ↦ summed amount) from
`lumpsum_list`, skipping entries with `exp_age < current_age` or
`exp_amt == 0`.  The dict with `.get(age, 0)` is modelled as a total
function `ℤ → ℚ` defaulting to `0`. -/
def buildLumpsumMap (current_age : ℤ) : List Entry → (ℤ → ℚ) → (ℤ → ℚ)
  | [], m => m
  | e :: rest, m =>
    if e.age < current_age ∨ e.amount = 0 then
      buildLumpsumMap current_age rest m
    else
      buildLumpsumMap current_age rest (Function.update m e.age (m e.age + e.amount))

/-- The `lumpsum_map` the engine uses for a given call. -/
def lumpsumMapOf (p : Params) (lumpsum_list : List Entry) : ℤ → ℚ :=
  buildLumpsumMap p.current_age lumpsum_list (fun _ => 0)

/-- Line 103: `salary_income`. -/
def salaryIncome (p : Params) (age : ℤ) (current_salary : ℚ) : ℤ :=
  if age ≤ p.retirement_age then pyInt current_salary else 0

/-- Lines 104–105: end-of-iteration salary growth. -/
def nextSalary (p : Params) (age : ℤ) (current_salary : ℚ) : ℚ :=
  if age < p.retirement_age then current_salary * (1 + p.salary_growth / 100)
  else current_salary

/-- Line 107: `investment_income`. -/
def investmentIncome (p : Params) (remaining_assets : ℚ) : ℤ :=
  if 0 < remaining_assets then pyInt (remaining_assets * (p.investment_return / 100))
  else 0

/-- Line 108: `pension_income`. -/
def pensionIncome (p : Params) (age : ℤ) : ℤ :=
  if p.retirement_age < age then pyInt (p.retirement_pension * 12) else 0

/-- Line 111: `living_expense`. -/
def livingExpense (p : Params) : ℤ :=
  pyInt (p.monthly_expense * 12)

/-- Line 114: `base_expense`, built from the already-truncated
`living_expense` and `housing_expense` and compounded by inflation over
the zero-based year offset `i`. -/
def baseExpense (p : Params) (mm : ℚ) (age : ℤ) (i : ℕ) : ℚ :=
  ((livingExpense p : ℚ) +
      (calc_housing_expense age p.rent_or_buy p.monthly_rent p.buy_age
        p.down_payment mm p.loan_term : ℚ)) *
    (1 + p.inflation_rate / 100) ^ i

/-- Line 117: `total_expense = int(base_expense) + int(lumpsum_expense)`. -/
def totalExpense (p : Params) (lmap : ℤ → ℚ) (mm : ℚ) (age : ℤ) (i : ℕ) : ℤ :=
  pyInt (baseExpense p mm age i) + pyInt (lmap age)

/-- Line 109: `total_income`. -/
def totalIncome (p : Params) (age : ℤ) (current_salary remaining_assets : ℚ) : ℤ :=
  salaryIncome p age current_salary + investmentIncome p remaining_assets +
    pensionIncome p age

/-- Line 118: `annual_balance`. -/
def annualBalance (p : Params) (lmap : ℤ → ℚ) (mm : ℚ) (age : ℤ) (i : ℕ)
    (current_salary remaining_assets : ℚ) : ℤ :=
  totalIncome p age current_salary remaining_assets - totalExpense p lmap mm age i

/-- Line 120: the asset update
`((remaining_assets + annual_balance) * (1 + r/100)) / (1 + π/100)`. -/
def nextAssets (p : Params) (remaining_assets : ℚ) (annual_balance : ℤ) : ℚ :=
  ((remaining_assets + (annual_balance : ℚ)) * (1 + p.investment_return / 100)) /
    (1 + p.inflation_rate / 100)

/-- Lines 122–126: the row appended for year offset `i` at `age`, given the
loop state entering the iteration. -/
def mkRow (p : Params) (lmap : ℤ → ℚ) (mm : ℚ) (i : ℕ) (age : ℤ)
    (current_salary remaining_assets : ℚ) : Row :=
  { age := age
    salary_income := salaryIncome p age current_salary
    investment_income := investmentIncome p remaining_assets
    pension_income := pensionIncome p age
    total_income := totalIncome p age current_salary remaining_assets
    living_expense := livingExpense p
    housing_expense := calc_housing_expense age p.rent_or_buy p.monthly_rent
      p.buy_age p.down_payment mm p.loan_term
    lumpsum_expense := lmap age
    total_expense := totalExpense p lmap mm age i
    annual_balance := annualBalance p lmap mm age i current_salary remaining_assets
    cumulative_balance := nextAssets p remaining_assets
      (annualBalance p lmap mm age i current_salary remaining_assets) }

/-- Lines 102–126: the `for i, age in enumerate(ages)` loop, with the two
mutable accumulators (`current_salary`, `remaining_assets`) passed
explicitly; `k` is the number of remaining iterations. -/
def runLoop (p : Params) (lmap : ℤ → ℚ) (mm : ℚ) :
    ℕ → ℕ → ℤ → ℚ → ℚ → List Row
  | 0, _, _, _, _ => []
  | k + 1, i, age, current_salary, remaining_assets =>
    mkRow p lmap mm i age current_salary remaining_assets ::
      runLoop p lmap mm k (i + 1) (age + 1) (nextSalary p age current_salary)
        (nextAssets p remaining_assets
          (annualBalance p lmap mm age i current_salary remaining_assets))

/-- Number of ages in `range(current_age, expected_lifespan + 1)`. -/
def numAges (p : Params) : ℕ := (p.expected_lifespan - p.current_age + 1).toNat

/-- Lines 70–133: `calculate_retirement_cashflow`.  `none` models an
uncaught `ZeroDivisionError`: either the annuity denominator is zero
(line 86, before any row), or `1 + inflation_rate/100 == 0` and at least
one iteration runs (line 120 divides by it before the first append). -/
def calculate_retirement_cashflow (p : Params) (lumpsum_list : List Entry) :
    Option (List Row) :=
  match monthlyMortgage p.loan_amount p.loan_term p.loan_rate with
  | none => none
  | some mm =>
    if 1 + p.inflation_rate / 100 = 0 ∧ p.current_age ≤ p.expected_lifespan then
      none
    else
      some (runLoop p (lumpsumMapOf p lumpsum_list) mm (numAges p) 0
        p.current_age p.annual_salary p.investable_assets)

/-- The running salary entering iteration `n` (after `n` end-of-year growth
applications, each guarded by `age < retirement_age`). -/
def salaryAt (p : Params) : ℕ → ℚ
  | 0 => p.annual_salary
  | n + 1 => nextSalary p (p.current_age + n) (salaryAt p n)

/-- The running asset balance entering iteration `n` (`investable_assets`
before the first iteration). -/
def assetsAt (p : Params) (lmap : ℤ → ℚ) (mm : ℚ) : ℕ → ℚ
  | 0 => p.investable_assets
  | n + 1 =>
    nextAssets p (assetsAt p lmap mm n)
      (annualBalance p lmap mm (p.current_age + n) n (salaryAt p n)
        (assetsAt p lmap mm n))

/-- The row the loop produces at zero-based offset `n`. -/
def rowAt (p : Params) (lmap : ℤ → ℚ) (mm : ℚ) (n : ℕ) : Row :=
  mkRow p lmap mm n (p.current_age + n) (salaryAt p n) (assetsAt p lmap mm n)

/-! ### Basic lemmas about `pyInt` and the loop unrolling -/

theorem pyInt_intCast (k : ℤ) : pyInt (k : ℚ) = k := by
  unfold pyInt
  split <;> simp

theorem pyInt_zero : pyInt 0 = 0 := by
  simpa using pyInt_intCast 0

theorem pyInt_int_add (j k : ℤ) : pyInt ((j : ℚ) + (k : ℚ)) = j + k := by
  rw [show ((j : ℚ) + (k : ℚ)) = ((j + k : ℤ) : ℚ) by push_cast; ring]
  exact pyInt_intCast (j + k)

theorem salaryAt_succ (p : Params) (n : ℕ) :
    salaryAt p (n + 1) = nextSalary p (p.current_age + n) (salaryAt p n) := rfl

theorem assetsAt_succ (p : Params) (lmap : ℤ → ℚ) (mm : ℚ) (n : ℕ) :
    assetsAt p lmap mm (n + 1) =
      nextAssets p (assetsAt p lmap mm n)
        (annualBalance p lmap mm (p.current_age + n) n (salaryAt p n)
          (assetsAt p lmap mm n)) := rfl

theorem rowAt_cumulative (p : Params) (lmap : ℤ → ℚ) (mm : ℚ) (n : ℕ) :
    (rowAt p lmap mm n).cumulative_balance = assetsAt p lmap mm (n + 1) := rfl

theorem rowAt_annual (p : Params) (lmap : ℤ → ℚ) (mm : ℚ) (n : ℕ) :
    (rowAt p lmap mm n).annual_balance =
      annualBalance p lmap mm (p.current_age + n) n (salaryAt p n)
        (assetsAt p lmap mm n) := rfl

theorem rowAt_age (p : Params) (lmap : ℤ → ℚ) (mm : ℚ) (n : ℕ) :
    (rowAt p lmap mm n).age = p.current_age + n := rfl

theorem runLoop_eq_map (p : Params) (lmap : ℤ → ℚ) (mm : ℚ) :
    ∀ (k n : ℕ),
      runLoop p lmap mm k n (p.current_age + n) (salaryAt p n) (assetsAt p lmap mm n) =
        (List.range k).map (fun j => rowAt p lmap mm (n + j)) := by
  intro k
  induction k with
  | zero => intro n; simp [runLoop]
  | succ k ih =>
    intro n
    have hhead :
        mkRow p lmap mm n (p.current_age + n) (salaryAt p n) (assetsAt p lmap mm n) =
          rowAt p lmap mm n := rfl
    have htail :
        runLoop p lmap mm k (n + 1) (p.current_age + n + 1)
            (nextSalary p (p.current_age + n) (salaryAt p n))
            (nextAssets p (assetsAt p lmap mm n)
              (annualBalance p lmap mm (p.current_age + n) n (salaryAt p n)
                (assetsAt p lmap mm n))) =
          (List.range k).map (fun j => rowAt p lmap mm (n + 1 + j)) := by
      have hthis := ih (n + 1)
      rw [← salaryAt_succ, ← assetsAt_succ,
        show (p.current_age + (n : ℤ) + 1) = p.current_age + ((n + 1 : ℕ) : ℤ) by
          push_cast; ring]
      exact hthis
    rw [runLoop, hhead, htail, List.range_succ_eq_map]
    simp only [List.map_cons, List.map_map]
    have hfun : ((fun j => rowAt p lmap mm (n + j)) ∘ Nat.succ) =
        fun j => rowAt p lmap mm (n + 1 + j) := by
      funext j
      simp only [Function.comp_apply]
      congr 1
      omega
    rw [hfun]
    norm_num

theorem calculate_eq_map (p : Params) (l : List Entry) (rows : List Row)
    (h : calculate_retirement_cashflow p l = some rows) :
    ∃ mm : ℚ, monthlyMortgage p.loan_amount p.loan_term p.loan_rate = some mm ∧
      rows = (List.range (numAges p)).map (rowAt p (lumpsumMapOf p l) mm) := by
  unfold calculate_retirement_cashflow at h
  split at h
  · exact absurd h (by simp)
  · rename_i mm hmm
    split at h
    · exact absurd h (by simp)
    · rename_i hg
      refine ⟨mm, hmm, ?_⟩
      have hrun := runLoop_eq_map p (lumpsumMapOf p l) mm (numAges p) 0
      simp only [Nat.cast_zero, add_zero, zero_add, salaryAt, assetsAt] at hrun
      rw [← Option.some.inj h]
      exact hrun

theorem calculate_length (p : Params) (l : List Entry) (rows : List Row)
    (h : calculate_retirement_cashflow p l = some rows) :
    rows.length = numAges p := by
  obtain ⟨mm, _, hr⟩ := calculate_eq_map p l rows h
  simp [hr]

theorem calculate_get (p : Params) (l : List Entry) (rows : List Row)
    (h : calculate_retirement_cashflow p l = some rows)
    (i : ℕ) (hi : i < rows.length) :
    ∃ mm : ℚ, monthlyMortgage p.loan_amount p.loan_term p.loan_rate = some mm ∧
      rows.get ⟨i, hi⟩ = rowAt p (lumpsumMapOf p l) mm i := by
  obtain ⟨mm, hmm, hr⟩ := calculate_eq_map p l rows h
  refine ⟨mm, hmm, ?_⟩
  subst hr
  simp

/-! ### The cumulative-balance recurrence -/

theorem calculate_cum_step (p : Params) (l : List Entry) (rows : List Row)
    (h : calculate_retirement_cashflow p l = some rows)
    (i : ℕ) (hi : i < rows.length) :
    (rows.get ⟨i, hi⟩).cumulative_balance =
      (((if i = 0 then p.investable_assets
          else (rows.getD (i - 1) default).cumulative_balance) +
            ((rows.get ⟨i, hi⟩).annual_balance : ℚ)) *
          (1 + p.investment_return / 100)) /
        (1 + p.inflation_rate / 100) := by
  obtain ⟨mm, hmm, hgi⟩ := calculate_get p l rows h i hi
  cases i with
  | zero =>
    rw [if_pos rfl, hgi]
    rfl
  | succ j =>
    have hj : j < rows.length := Nat.lt_of_succ_lt hi
    obtain ⟨mm', hmm', hgj⟩ := calculate_get p l rows h j hj
    have hmmeq : mm' = mm := by
      rw [hmm] at hmm'
      exact (Option.some.inj hmm').symm
    subst hmmeq
    have hgj2 : rows[j] = rowAt p (lumpsumMapOf p l) mm' j := by
      rw [← hgj]
      exact (List.get_eq_getElem rows ⟨j, hj⟩).symm
    have hgetD : rows.getD (j + 1 - 1) default =
        rowAt p (lumpsumMapOf p l) mm' j := by
      rw [Nat.succ_sub_one, List.getD_eq_getElem _ _ hj, hgj2]
    rw [if_neg (Nat.succ_ne_zero j), hgetD, hgi, rowAt_cumulative]
    rfl

/-- C1: for every age step `i`, the engine stores as `cumulative_balance`
exactly `(previous balance + annual_balance) * (1 + investment_return/100)
/ (1 + inflation_rate/100)`, the previous balance being
`investable_assets` for the first row and the previous row's
`cumulative_balance` afterwards. -/
theorem C1_asset_update (p : Params) (l : List Entry) (rows : List Row)
    (h : calculate_retirement_cashflow p l = some rows)
    (i : ℕ) (hi : i < rows.length) :
    (rows.get ⟨i, hi⟩).cumulative_balance =
      (((if i = 0 then p.investable_assets
          else (rows.getD (i - 1) default).cumulative_balance) +
            ((rows.get ⟨i, hi⟩).annual_balance : ℚ)) *
          (1 + p.investment_return / 100)) /
        (1 + p.inflation_rate / 100) :=
  calculate_cum_step p l rows h i hi

/-- A small concrete rent-mode parameter set (ages 40..42, zero rates),
used to instantiate the universally quantified theorems. -/
def pRent : Params :=
  { current_age := 40
    retirement_age := 41
    expected_lifespan := 42
    monthly_expense := 1
    rent_or_buy := .rent
    monthly_rent := 1
    buy_age := 40
    home_price := 0
    down_payment := 0
    loan_amount := 0
    loan_term := 0
    loan_rate := 0
    annual_salary := 10
    salary_growth := 0
    investable_assets := 5
    investment_return := 0
    inflation_rate := 0
    retirement_pension := 2 }

theorem evalRent : calculate_retirement_cashflow pRent [] =
    some [⟨40, 10, 0, 0, 10, 12, 12, 0, 24, -14, -9⟩,
          ⟨41, 10, 0, 0, 10, 12, 12, 0, 24, -14, -23⟩,
          ⟨42, 0, 0, 24, 24, 12, 12, 0, 24, 0, -23⟩] := by
  norm_num [calculate_retirement_cashflow, monthlyMortgage, numAges, lumpsumMapOf,
    buildLumpsumMap, runLoop, mkRow, salaryIncome, nextSalary, investmentIncome,
    pensionIncome, livingExpense, baseExpense, totalExpense, totalIncome,
    annualBalance, nextAssets, calc_housing_expense, pyInt, pRent]

theorem C1_asset_update_witness :
    (((calculate_retirement_cashflow pRent []).getD []).getD 1 default).cumulative_balance
      = -23 := by
  cases h : calculate_retirement_cashflow pRent [] with
  | none => exact absurd h (by rw [evalRent]; exact fun hc => by cases hc)
  | some rows =>
    have hrows : rows = [⟨40, 10, 0, 0, 10, 12, 12, 0, 24, -14, -9⟩,
          ⟨41, 10, 0, 0, 10, 12, 12, 0, 24, -14, -23⟩,
          ⟨42, 0, 0, 24, 24, 12, 12, 0, 24, 0, -23⟩] := by
      rw [evalRent] at h
      exact (Option.some.inj h).symm
    subst hrows
    have hi : 1 < ([⟨40, 10, 0, 0, 10, 12, 12, 0, 24, -14, -9⟩,
          ⟨41, 10, 0, 0, 10, 12, 12, 0, 24, -14, -23⟩,
          ⟨42, 0, 0, 24, 24, 12, 12, 0, 24, 0, -23⟩] : List Row).length := by
      norm_num
    have H := C1_asset_update pRent [] _ h 1 hi
    simp only [Option.getD_some]
    rw [show (([⟨40, 10, 0, 0, 10, 12, 12, 0, 24, -14, -9⟩,
          ⟨41, 10, 0, 0, 10, 12, 12, 0, 24, -14, -23⟩,
          ⟨42, 0, 0, 24, 24, 12, 12, 0, 24, 0, -23⟩] : List Row).getD 1 default) =
        ([⟨40, 10, 0, 0, 10, 12, 12, 0, 24, -14, -9⟩,
          ⟨41, 10, 0, 0, 10, 12, 12, 0, 24, -14, -23⟩,
          ⟨42, 0, 0, 24, 24, 12, 12, 0, 24, 0, -23⟩] : List Row).get ⟨1, hi⟩ from rfl]
    rw [H]
    norm_num [pRent]

/-- C8: with `investment_return = 0` and `inflation_rate = 0`, each
`cumulative_balance` is exactly the previous one plus the row's
`annual_balance` (the asset update degenerates to pure addition). -/
theorem C8_zero_rate_addition (p : Params) (l : List Entry) (rows : List Row)
    (hr : p.investment_return = 0) (hinf : p.inflation_rate = 0)
    (h : calculate_retirement_cashflow p l = some rows)
    (n : ℕ) (hn : n < rows.length) (h1 : 1 ≤ n) :
    (rows.get ⟨n, hn⟩).cumulative_balance =
      (rows.getD (n - 1) default).cumulative_balance +
        ((rows.get ⟨n, hn⟩).annual_balance : ℚ) := by
  have H := calculate_cum_step p l rows h n hn
  rw [if_neg (by omega)] at H
  rw [H, hr, hinf]
  norm_num

theorem C8_zero_rate_addition_witness :
    (((calculate_retirement_cashflow pRent []).getD []).getD 2 default).cumulative_balance
      = (((calculate_retirement_cashflow pRent []).getD []).getD 1 default).cumulative_balance
        + ((((calculate_retirement_cashflow pRent []).getD []).getD 2 default).annual_balance : ℚ) := by
  cases h : calculate_retirement_cashflow pRent [] with
  | none => rw [evalRent] at h; exact Option.noConfusion h
  | some rows =>
    have hrows : rows = [⟨40, 10, 0, 0, 10, 12, 12, 0, 24, -14, -9⟩,
          ⟨41, 10, 0, 0, 10, 12, 12, 0, 24, -14, -23⟩,
          ⟨42, 0, 0, 24, 24, 12, 12, 0, 24, 0, -23⟩] := by
      rw [evalRent] at h
      exact (Option.some.inj h).symm
    subst hrows
    have hn : 2 < ([⟨40, 10, 0, 0, 10, 12, 12, 0, 24, -14, -9⟩,
          ⟨41, 10, 0, 0, 10, 12, 12, 0, 24, -14, -23⟩,
          ⟨42, 0, 0, 24, 24, 12, 12, 0, 24, 0, -23⟩] : List Row).length := by
      norm_num
    have H := C8_zero_rate_addition pRent [] _ rfl rfl h 2 hn (by norm_num)
    simp only [Option.getD_some]
    exact H

/-- C5: for parameter sets with `current_age ≤ expected_lifespan` the row
sequence has length `expected_lifespan - current_age + 1`, starts at
`current_age`, ends at `expected_lifespan`, and consecutive ages increase
by exactly 1. -/
theorem C5_row_ladder (p : Params) (l : List Entry) (rows : List Row)
    (h : calculate_retirement_cashflow p l = some rows)
    (hca : p.current_age ≤ p.expected_lifespan) :
    (rows.length : ℤ) = p.expected_lifespan - p.current_age + 1 ∧
    (∀ h0 : 0 < rows.length, (rows.get ⟨0, h0⟩).age = p.current_age) ∧
    (∀ hl : rows.length - 1 < rows.length,
      (rows.get ⟨rows.length - 1, hl⟩).age = p.expected_lifespan) ∧
    (∀ i, ∀ hi1 : i + 1 < rows.length,
      (rows.get ⟨i + 1, hi1⟩).age = (rows.get ⟨i, Nat.lt_of_succ_lt hi1⟩).age + 1) := by
  have hages : ∀ i (hi : i < rows.length), (rows.get ⟨i, hi⟩).age = p.current_age + i := by
    intro i hi
    obtain ⟨mm, hmm, hg⟩ := calculate_get p l rows h i hi
    rw [hg]
    rfl
  have hlen := calculate_length p l rows h
  have hlenZ : (rows.length : ℤ) = p.expected_lifespan - p.current_age + 1 := by
    rw [hlen]
    unfold numAges
    rw [Int.toNat_of_nonneg (by omega)]
  refine ⟨hlenZ, ?_, ?_, ?_⟩
  · intro h0
    rw [hages 0 h0]
    norm_num
  · intro hl
    rw [hages _ hl]
    omega
  · intro i hi1
    rw [hages _ hi1, hages i (Nat.lt_of_succ_lt hi1)]
    push_cast
    ring

theorem C5_row_ladder_witness :
    (((calculate_retirement_cashflow pRent []).getD []).length : ℤ) = 3 := by
  cases h : calculate_retirement_cashflow pRent [] with
  | none => rw [evalRent] at h; exact Option.noConfusion h
  | some rows =>
    have H := C5_row_ladder pRent [] rows h (by norm_num [pRent])
    simp only [Option.getD_some]
    rw [H.1]
    norm_num [pRent]

/-- Buy-mode parameter set with a positive loan at a 0% annual rate (the
UI permits `loan_rate = 0.0`, its stated minimum). -/
def pC2 : Params :=
  { current_age := 40
    retirement_age := 41
    expected_lifespan := 42
    monthly_expense := 1
    rent_or_buy := .buy
    monthly_rent := 1
    buy_age := 40
    home_price := 1250000
    down_payment := 250000
    loan_amount := 1000000
    loan_term := 10
    loan_rate := 0
    annual_salary := 10
    salary_growth := 0
    investable_assets := 5
    investment_return := 0
    inflation_rate := 0
    retirement_pension := 2 }

/-- C2: the code does NOT special-case a 0% loan rate.  With
`loan_amount > 0`, `loan_term > 0` and `loan_rate = 0` the annuity
denominator `1 - (1 + 0) ** (-term * 12)` is zero, the division raises
(modelled as `none`), and the projection returns no rows — contradicting
the claimed linear-payment fallback. -/
theorem C2_zero_rate_raises :
    monthlyMortgage pC2.loan_amount pC2.loan_term pC2.loan_rate = none ∧
    calculate_retirement_cashflow pC2 [] = none := by
  have hmm : monthlyMortgage pC2.loan_amount pC2.loan_term pC2.loan_rate = none := by
    norm_num [monthlyMortgage, pC2]
  refine ⟨hmm, ?_⟩
  unfold calculate_retirement_cashflow
  rw [hmm]

/-- The `pRent` scenario with the age order broken:
`retirement_age = 38 < current_age = 40`. -/
def pBad : Params :=
  { pRent with retirement_age := 38 }

/-- C4 is refuted: with `current_age = 40`, `retirement_age = 38` the
precondition `current_age < retirement_age` fails, yet the call is not
rejected — it still produces a full 3-row ledger. -/
theorem C4_counterexample :
    ¬ pBad.current_age < pBad.retirement_age ∧
    calculate_retirement_cashflow pBad [] =
      some [⟨40, 0, 0, 24, 24, 12, 12, 0, 24, 0, 5⟩,
            ⟨41, 0, 0, 24, 24, 12, 12, 0, 24, 0, 5⟩,
            ⟨42, 0, 0, 24, 24, 12, 12, 0, 24, 0, 5⟩] := by
  constructor
  · norm_num [pBad, pRent]
  · norm_num [calculate_retirement_cashflow, monthlyMortgage, numAges, lumpsumMapOf,
      buildLumpsumMap, runLoop, mkRow, salaryIncome, nextSalary, investmentIncome,
      pensionIncome, livingExpense, baseExpense, totalExpense, totalIncome,
      annualBalance, nextAssets, calc_housing_expense, pyInt, pBad, pRent]

/-- C4 (amended): the engine performs no validation of the age
parameters.  Whenever the mortgage step succeeds and the deflation factor
is nonzero, it returns the full ladder of
`(expected_lifespan - current_age + 1)` rows (empty only when
`current_age > expected_lifespan`) — regardless of whether
`current_age < retirement_age ≤ expected_lifespan` holds.  Age-order
validation lives in the input widgets, not in the engine. -/
theorem C4_no_validation (p : Params) (l : List Entry) (mm : ℚ)
    (hmm : monthlyMortgage p.loan_amount p.loan_term p.loan_rate = some mm)
    (hinf : 1 + p.inflation_rate / 100 ≠ 0) :
    ∃ rows : List Row, calculate_retirement_cashflow p l = some rows ∧
      rows.length = numAges p := by
  have hc : calculate_retirement_cashflow p l =
      some (runLoop p (lumpsumMapOf p l) mm (numAges p) 0
        p.current_age p.annual_salary p.investable_assets) := by
    unfold calculate_retirement_cashflow
    rw [hmm]
    exact if_neg (fun hand => hinf hand.1)
  exact ⟨_, hc, calculate_length p l _ hc⟩

theorem C4_no_validation_witness :
    (calculate_retirement_cashflow pBad []).isSome = true := by
  obtain ⟨rows, hc, _⟩ := C4_no_validation pBad [] 0
    (by norm_num [monthlyMortgage, pBad, pRent]) (by norm_num [pBad, pRent])
  rw [hc]
  rfl

/-! ### Lemmas about the lumpsum map -/

theorem buildLumpsumMap_skip (ca : ℤ) (e : Entry)
    (he : e.age < ca ∨ e.amount = 0) :
    ∀ (l1 l2 : List Entry) (m : ℤ → ℚ),
      buildLumpsumMap ca (l1 ++ e :: l2) m = buildLumpsumMap ca (l1 ++ l2) m := by
  intro l1
  induction l1 with
  | nil =>
    intro l2 m
    simp only [List.nil_append, buildLumpsumMap]
    rw [if_pos he]
  | cons a l1' ih =>
    intro l2 m
    simp only [List.cons_append, buildLumpsumMap]
    by_cases ha : a.age < ca ∨ a.amount = 0
    · rw [if_pos ha, if_pos ha]
      exact ih l2 m
    · rw [if_neg ha, if_neg ha]
      exact ih l2 _

theorem buildLumpsumMap_value (ca : ℤ) :
    ∀ (l : List Entry) (m : ℤ → ℚ) (a : ℤ),
      buildLumpsumMap ca l m a =
        m a + ((l.filter fun e =>
          decide (¬ e.age < ca ∧ e.amount ≠ 0 ∧ e.age = a)).map Entry.amount).sum := by
  intro l
  induction l with
  | nil =>
    intro m a
    simp [buildLumpsumMap]
  | cons e rest ih =>
    intro m a
    simp only [buildLumpsumMap, List.filter_cons]
    by_cases he : e.age < ca ∨ e.amount = 0
    · have hd : decide (¬ e.age < ca ∧ e.amount ≠ 0 ∧ e.age = a) = false := by
        simp only [decide_eq_false_iff_not]
        tauto
      rw [if_pos he, hd]
      simp only [Bool.false_eq_true, if_false]
      exact ih m a
    · rw [if_neg he]
      rw [not_or] at he
      by_cases hea : e.age = a
      · have hd : decide (¬ e.age < ca ∧ e.amount ≠ 0 ∧ e.age = a) = true := by
          simp only [decide_eq_true_eq]
          exact ⟨he.1, he.2, hea⟩
        rw [hd]
        simp only [if_true, List.map_cons, List.sum_cons]
        rw [ih _ a]
        subst hea
        rw [Function.update_same]
        ring
      · have hd : decide (¬ e.age < ca ∧ e.amount ≠ 0 ∧ e.age = a) = false := by
          simp only [decide_eq_false_iff_not]
          tauto
        rw [hd]
        simp only [Bool.false_eq_true, if_false]
        rw [ih _ a, Function.update_noteq (fun hc => hea hc.symm)]

theorem evalRentNeg : calculate_retirement_cashflow pRent [⟨40, -5⟩] =
    some [⟨40, 10, 0, 0, 10, 12, 12, -5, 19, -9, -4⟩,
          ⟨41, 10, 0, 0, 10, 12, 12, 0, 24, -14, -18⟩,
          ⟨42, 0, 0, 24, 24, 12, 12, 0, 24, 0, -18⟩] := by
  norm_num [calculate_retirement_cashflow, monthlyMortgage, numAges, lumpsumMapOf,
    buildLumpsumMap, runLoop, mkRow, salaryIncome, nextSalary, investmentIncome,
    pensionIncome, livingExpense, baseExpense, totalExpense, totalIncome,
    annualBalance, nextAssets, calc_housing_expense, pyInt, Function.update,
    Int.ceil_neg, pRent]

/-- C3 is refuted as stated: the code only drops entries with amount
exactly 0, not amount ≤ 0.  The entry `{age 40, amount -5}` (amount ≤ 0,
which the claim says is excluded) changes the age-40 row: its
`total_expense` drops from 24 to 19. -/
theorem C3_counterexample :
    ((-5 : ℚ) ≤ 0 ∧ pRent.current_age ≤ 40) ∧
    (calculate_retirement_cashflow pRent [⟨40, -5⟩]).map
      (List.map Row.total_expense) = some [19, 24, 24] ∧
    (calculate_retirement_cashflow pRent []).map
      (List.map Row.total_expense) = some [24, 24, 24] := by
  refine ⟨by norm_num [pRent], ?_, ?_⟩
  · rw [evalRentNeg]
    rfl
  · rw [evalRent]
    rfl

/-- C3 (amended): before the per-age iteration, every entry whose age is
below `current_age` or whose amount is exactly 0 is excluded (removing it
leaves the whole result unchanged) — entries with negative amounts are
kept — and the per-age amount the engine uses is the sum of all retained
entries with that age. -/
theorem C3_filter_and_sum (p : Params) (l1 l2 : List Entry) (e : Entry)
    (he : e.age < p.current_age ∨ e.amount = 0) :
    calculate_retirement_cashflow p (l1 ++ e :: l2) =
      calculate_retirement_cashflow p (l1 ++ l2) ∧
    ∀ a : ℤ, lumpsumMapOf p (l1 ++ l2) a =
      (((l1 ++ l2).filter fun e2 =>
        decide (¬ e2.age < p.current_age ∧ e2.amount ≠ 0 ∧ e2.age = a)).map
          Entry.amount).sum := by
  constructor
  · unfold calculate_retirement_cashflow lumpsumMapOf
    rw [buildLumpsumMap_skip p.current_age e he l1 l2]
  · intro a
    unfold lumpsumMapOf
    rw [buildLumpsumMap_value p.current_age (l1 ++ l2) _ a]
    simp

theorem C3_filter_and_sum_witness :
    calculate_retirement_cashflow pRent [⟨39, 5⟩] =
      calculate_retirement_cashflow pRent [] := by
  have H := C3_filter_and_sum pRent [] [] ⟨39, 5⟩ (Or.inl (by norm_num [pRent]))
  simpa using H.1

theorem lumpsumMapOf_append_single (p : Params) (l : List Entry)
    (A2 : ℤ) (M2 : ℚ) (a : ℤ) :
    lumpsumMapOf p (l ++ [⟨A2, M2⟩]) a =
      lumpsumMapOf p l a +
        (if ¬ A2 < p.current_age ∧ M2 ≠ 0 ∧ A2 = a then M2 else 0) := by
  unfold lumpsumMapOf
  rw [buildLumpsumMap_value, buildLumpsumMap_value, List.filter_append]
  simp only [List.map_append, List.sum_append, List.filter_cons, List.filter_nil]
  by_cases hc : ¬ A2 < p.current_age ∧ M2 ≠ 0 ∧ A2 = a
  · rw [if_pos hc]
    have hd : decide (¬ (⟨A2, M2⟩ : Entry).age < p.current_age ∧
        (⟨A2, M2⟩ : Entry).amount ≠ 0 ∧ (⟨A2, M2⟩ : Entry).age = a) = true := by
      simpa using hc
    rw [hd]
    simp only [if_true, List.map_cons, List.map_nil, List.sum_cons, List.sum_nil]
    ring
  · rw [if_neg hc]
    have hd : decide (¬ (⟨A2, M2⟩ : Entry).age < p.current_age ∧
        (⟨A2, M2⟩ : Entry).amount ≠ 0 ∧ (⟨A2, M2⟩ : Entry).age = a) = false := by
      simpa using hc
    rw [hd]
    simp

theorem sum_int_valued : ∀ L : List ℚ, (∀ x ∈ L, ∃ k : ℤ, x = (k : ℚ)) →
    ∃ k : ℤ, L.sum = (k : ℚ) := by
  intro L
  induction L with
  | nil => intro _; exact ⟨0, by simp⟩
  | cons x rest ih =>
    intro hmem
    obtain ⟨kx, hkx⟩ := hmem x (List.mem_cons_self x rest)
    obtain ⟨kr, hkr⟩ := ih (fun y hy => hmem y (List.mem_cons_of_mem x hy))
    exact ⟨kx + kr, by rw [List.sum_cons, hkx, hkr]; push_cast; ring⟩

theorem lumpsumMapOf_int_valued (p : Params) (l : List Entry)
    (hInt : ∀ e ∈ l, ∃ k : ℤ, e.amount = (k : ℚ)) (a : ℤ) :
    ∃ k : ℤ, lumpsumMapOf p l a = (k : ℚ) := by
  unfold lumpsumMapOf
  rw [buildLumpsumMap_value]
  simp only [zero_add]
  apply sum_int_valued
  intro x hx
  rw [List.mem_map] at hx
  obtain ⟨e, he, hxe⟩ := hx
  rw [← hxe]
  exact hInt e (List.mem_of_mem_filter he)

theorem calculate_totalExpense_formula (p : Params) (l : List Entry)
    (rows : List Row) (h : calculate_retirement_cashflow p l = some rows)
    (i : ℕ) (hi : i < rows.length) :
    ∃ mm : ℚ, monthlyMortgage p.loan_amount p.loan_term p.loan_rate = some mm ∧
      (rows.get ⟨i, hi⟩).age = p.current_age + i ∧
      (rows.get ⟨i, hi⟩).total_expense =
        pyInt (baseExpense p mm (p.current_age + i) i) +
          pyInt (lumpsumMapOf p l (p.current_age + i)) := by
  obtain ⟨mm, hmm, hg⟩ := calculate_get p l rows h i hi
  exact ⟨mm, hmm, by rw [hg]; rfl, by rw [hg]; rfl⟩

/-- C7 (amended): when the added amount `M` is a positive integer and all
amounts already on the list are integers, appending the entry
`{age A, amount M}` with `A ≥ current_age` raises `total_expense` by
exactly `M` at the row whose age is `A` and leaves `total_expense` of
every other row unchanged; appending an entry with age below
`current_age` changes nothing at all.  (For non-integer amounts the
truncation `int(lumpsum_expense)` breaks the exact-`M` increment.) -/
theorem C7_lumpsum_isolation (p : Params) (l : List Entry) (A M : ℤ)
    (hM : 0 < M) (hA : p.current_age ≤ A)
    (hInt : ∀ e ∈ l, ∃ k : ℤ, e.amount = (k : ℚ))
    (rows rows' : List Row)
    (h : calculate_retirement_cashflow p l = some rows)
    (h' : calculate_retirement_cashflow p (l ++ [⟨A, (M : ℚ)⟩]) = some rows') :
    rows'.length = rows.length ∧
    (∀ i, ∀ hi : i < rows.length, ∀ hi' : i < rows'.length,
      ((rows.get ⟨i, hi⟩).age = A →
        (rows'.get ⟨i, hi'⟩).total_expense = (rows.get ⟨i, hi⟩).total_expense + M) ∧
      ((rows.get ⟨i, hi⟩).age ≠ A →
        (rows'.get ⟨i, hi'⟩).total_expense = (rows.get ⟨i, hi⟩).total_expense)) ∧
    (∀ (A2 : ℤ) (M2 : ℚ), A2 < p.current_age →
      calculate_retirement_cashflow p (l ++ [⟨A2, M2⟩]) =
        calculate_retirement_cashflow p l) := by
  refine ⟨?_, ?_, ?_⟩
  · rw [calculate_length p l rows h,
      calculate_length p (l ++ [⟨A, (M : ℚ)⟩]) rows' h']
  · intro i hi hi'
    obtain ⟨mm, hmm, hage, hte⟩ := calculate_totalExpense_formula p l rows h i hi
    obtain ⟨mm2, hmm2, hage', hte'⟩ :=
      calculate_totalExpense_formula p (l ++ [⟨A, (M : ℚ)⟩]) rows' h' i hi'
    have hmmeq : mm2 = mm := by
      rw [hmm] at hmm2
      exact (Option.some.inj hmm2).symm
    subst hmmeq
    obtain ⟨k, hk⟩ := lumpsumMapOf_int_valued p l hInt (p.current_age + i)
    have happ := lumpsumMapOf_append_single p l A (M : ℚ) (p.current_age + i)
    constructor
    · intro hAeq
      rw [hage] at hAeq
      rw [hte', hte, happ, if_pos ⟨not_lt.mpr hA, by exact_mod_cast hM.ne',
        hAeq.symm⟩, hk]
      rw [show ((k : ℚ) + (M : ℚ)) = ((k + M : ℤ) : ℚ) by push_cast; ring]
      rw [pyInt_intCast, pyInt_intCast]
      ring
    · intro hne
      rw [hage] at hne
      rw [hte', hte, happ, if_neg (fun hand => hne (hand.2.2).symm)]
      norm_num
  · intro A2 M2 hA2
    have := buildLumpsumMap_skip p.current_age ⟨A2, M2⟩ (Or.inl hA2) l []
    unfold calculate_retirement_cashflow lumpsumMapOf
    rw [this]
    rw [List.append_nil]

theorem evalRentHalf : calculate_retirement_cashflow pRent [⟨40, 1/2⟩] =
    some [⟨40, 10, 0, 0, 10, 12, 12, 1/2, 24, -14, -9⟩,
          ⟨41, 10, 0, 0, 10, 12, 12, 0, 24, -14, -23⟩,
          ⟨42, 0, 0, 24, 24, 12, 12, 0, 24, 0, -23⟩] := by
  norm_num [calculate_retirement_cashflow, monthlyMortgage, numAges, lumpsumMapOf,
    buildLumpsumMap, runLoop, mkRow, salaryIncome, nextSalary, investmentIncome,
    pensionIncome, livingExpense, baseExpense, totalExpense, totalIncome,
    annualBalance, nextAssets, calc_housing_expense, pyInt, Function.update,
    Int.ceil_neg, pRent]

/-- C7 is refuted as stated: adding the entry `{age 40, amount 1/2}` (a
valid age `A ≥ current_age` and a positive amount `M = 1/2`) changes
`total_expense` at the age-40 row by 0, not by `M`, because the engine
truncates the one-time amount with `int(...)`. -/
theorem C7_counterexample :
    ((0 : ℚ) < 1/2 ∧ pRent.current_age ≤ 40) ∧
    (calculate_retirement_cashflow pRent [⟨40, 1/2⟩]).map
      (List.map Row.total_expense) =
      (calculate_retirement_cashflow pRent []).map
        (List.map Row.total_expense) := by
  refine ⟨by norm_num [pRent], ?_⟩
  rw [evalRentHalf, evalRent]
  rfl

theorem evalRent7 : calculate_retirement_cashflow pRent [⟨40, (7 : ℚ)⟩] =
    some [⟨40, 10, 0, 0, 10, 12, 12, 7, 31, -21, -16⟩,
          ⟨41, 10, 0, 0, 10, 12, 12, 0, 24, -14, -30⟩,
          ⟨42, 0, 0, 24, 24, 12, 12, 0, 24, 0, -30⟩] := by
  norm_num [calculate_retirement_cashflow, monthlyMortgage, numAges, lumpsumMapOf,
    buildLumpsumMap, runLoop, mkRow, salaryIncome, nextSalary, investmentIncome,
    pensionIncome, livingExpense, baseExpense, totalExpense, totalIncome,
    annualBalance, nextAssets, calc_housing_expense, pyInt, Function.update,
    Int.ceil_neg, pRent]

theorem C7_lumpsum_isolation_witness :
    (((calculate_retirement_cashflow pRent [⟨40, (7 : ℚ)⟩]).getD []).getD 0
      default).total_expense =
    (((calculate_retirement_cashflow pRent []).getD []).getD 0
      default).total_expense + 7 := by
  cases h : calculate_retirement_cashflow pRent [] with
  | none => rw [evalRent] at h; exact Option.noConfusion h
  | some rows =>
    cases h2 : calculate_retirement_cashflow pRent [⟨40, (7 : ℚ)⟩] with
    | none => rw [evalRent7] at h2; exact Option.noConfusion h2
    | some rows' =>
      have h3 : calculate_retirement_cashflow pRent ([] ++ [⟨40, (7 : ℚ)⟩]) =
          some rows' := by simpa using h2
      have hrows : rows = [⟨40, 10, 0, 0, 10, 12, 12, 0, 24, -14, -9⟩,
          ⟨41, 10, 0, 0, 10, 12, 12, 0, 24, -14, -23⟩,
          ⟨42, 0, 0, 24, 24, 12, 12, 0, 24, 0, -23⟩] := by
        rw [evalRent] at h
        exact (Option.some.inj h).symm
      have hrows' : rows' = [⟨40, 10, 0, 0, 10, 12, 12, 7, 31, -21, -16⟩,
          ⟨41, 10, 0, 0, 10, 12, 12, 0, 24, -14, -30⟩,
          ⟨42, 0, 0, 24, 24, 12, 12, 0, 24, 0, -30⟩] := by
        rw [evalRent7] at h2
        exact (Option.some.inj h2).symm
      have H := C7_lumpsum_isolation pRent [] 40 7 (by norm_num)
        (by norm_num [pRent]) (by intro e he; cases he) rows rows' h h3
      subst hrows
      subst hrows'
      have H2 := (H.2.1 0 (by norm_num) (by norm_num)).1 rfl
      simp only [Option.getD_some]
      exact H2

/-- Buy-mode parameter set (ages 40..43, purchase at 41, 2-year loan of 1
at a 1200% annual rate, chosen so the level payment `16777216/16777215`
is an exactly representable non-integer). -/
def pBuy : Params :=
  { current_age := 40
    retirement_age := 41
    expected_lifespan := 43
    monthly_expense := 0
    rent_or_buy := .buy
    monthly_rent := 1
    buy_age := 41
    home_price := 1
    down_payment := 0
    loan_amount := 1
    loan_term := 2
    loan_rate := 1200
    annual_salary := 0
    salary_growth := 0
    investable_assets := 0
    investment_return := 0
    inflation_rate := 0
    retirement_pension := 0 }

theorem evalBuy : calculate_retirement_cashflow pBuy [] =
    some [⟨40, 0, 0, 0, 0, 0, 12, 0, 12, -12, -12⟩,
          ⟨41, 0, 0, 0, 0, 0, 12, 0, 12, -12, -24⟩,
          ⟨42, 0, 0, 0, 0, 0, 12, 0, 12, -12, -36⟩,
          ⟨43, 0, 0, 0, 0, 0, 0, 0, 0, 0, -36⟩] := by
  norm_num [calculate_retirement_cashflow, monthlyMortgage, numAges, lumpsumMapOf,
    buildLumpsumMap, runLoop, mkRow, salaryIncome, nextSalary, investmentIncome,
    pensionIncome, livingExpense, baseExpense, totalExpense, totalIncome,
    annualBalance, nextAssets, calc_housing_expense, pyInt, pBuy,
    show (24 : ℤ).toNat = 24 from rfl]

/-- C6 is refuted as stated: at the purchase age the stored
`housing_expense` is the `int(...)` truncation of
`down_payment + monthly_payment * 12` (here 12), not the exact value
`down_payment + 12 * monthly_payment = 201326592/16777215`. -/
theorem C6_counterexample :
    monthlyMortgage pBuy.loan_amount pBuy.loan_term pBuy.loan_rate =
      some (16777216/16777215 : ℚ) ∧
    (calculate_retirement_cashflow pBuy []).map
      (List.map Row.housing_expense) = some [12, 12, 12, 0] ∧
    ((calc_housing_expense 41 RentOrBuy.buy pBuy.monthly_rent pBuy.buy_age
        pBuy.down_payment (16777216/16777215 : ℚ) pBuy.loan_term : ℚ) ≠
      pBuy.down_payment + 12 * (16777216/16777215 : ℚ)) := by
  refine ⟨by norm_num [monthlyMortgage, pBuy, show (24 : ℤ).toNat = 24 from rfl], ?_, ?_⟩
  · rw [evalBuy]
    rfl
  · norm_num [calc_housing_expense, pyInt, pBuy]

theorem calc_housing_buy_branches (age buy_age loan_term : ℤ)
    (rent down mm : ℚ) :
    (age = buy_age →
      calc_housing_expense age RentOrBuy.buy rent buy_age down mm loan_term =
        pyInt (down + mm * 12)) ∧
    (buy_age < age ∧ age < buy_age + loan_term →
      calc_housing_expense age RentOrBuy.buy rent buy_age down mm loan_term =
        pyInt (mm * 12)) ∧
    (buy_age < age ∧ buy_age + loan_term ≤ age →
      calc_housing_expense age RentOrBuy.buy rent buy_age down mm loan_term = 0) := by
  simp only [calc_housing_expense]
  refine ⟨?_, ?_, ?_⟩
  · intro h1
    rw [if_neg (by omega), if_pos h1]
  · intro h1
    rw [if_neg (by omega), if_neg (by omega), if_pos h1]
  · intro h1
    rw [if_neg (by omega), if_neg (by omega), if_neg (by omega)]

/-- C6 (amended): in Buy mode the row at the purchase age stores the
truncation of `down_payment + monthly_payment * 12`; rows strictly
between the purchase age and payoff store the truncation of
`monthly_payment * 12`; rows past the purchase age at or beyond
`purchase_age + loan_term` store 0. -/
theorem C6_housing_boundaries (p : Params) (l : List Entry) (rows : List Row)
    (mm : ℚ) (hbuy : p.rent_or_buy = RentOrBuy.buy)
    (hmm : monthlyMortgage p.loan_amount p.loan_term p.loan_rate = some mm)
    (h : calculate_retirement_cashflow p l = some rows)
    (i : ℕ) (hi : i < rows.length) :
    ((rows.get ⟨i, hi⟩).age = p.buy_age →
      (rows.get ⟨i, hi⟩).housing_expense = pyInt (p.down_payment + mm * 12)) ∧
    (p.buy_age < (rows.get ⟨i, hi⟩).age ∧
        (rows.get ⟨i, hi⟩).age < p.buy_age + p.loan_term →
      (rows.get ⟨i, hi⟩).housing_expense = pyInt (mm * 12)) ∧
    (p.buy_age < (rows.get ⟨i, hi⟩).age ∧
        p.buy_age + p.loan_term ≤ (rows.get ⟨i, hi⟩).age →
      (rows.get ⟨i, hi⟩).housing_expense = 0) := by
  obtain ⟨mm2, hmm2, hg⟩ := calculate_get p l rows h i hi
  have hmmeq : mm = mm2 := by
    rw [hmm] at hmm2
    exact Option.some.inj hmm2
  subst hmmeq
  rw [hg]
  have hhe : (rowAt p (lumpsumMapOf p l) mm i).housing_expense =
      calc_housing_expense (p.current_age + i) RentOrBuy.buy p.monthly_rent
        p.buy_age p.down_payment mm p.loan_term := by
    rw [← hbuy]
    rfl
  have hage2 : (rowAt p (lumpsumMapOf p l) mm i).age = p.current_age + i := rfl
  rw [hhe, hage2]
  exact calc_housing_buy_branches (p.current_age + i) p.buy_age p.loan_term
    p.monthly_rent p.down_payment mm

theorem C6_housing_boundaries_witness :
    (((calculate_retirement_cashflow pBuy []).getD []).getD 1
      default).housing_expense =
      pyInt (pBuy.down_payment + (16777216/16777215 : ℚ) * 12) := by
  cases h : calculate_retirement_cashflow pBuy [] with
  | none => rw [evalBuy] at h; exact Option.noConfusion h
  | some rows =>
    have hrows : rows = [⟨40, 0, 0, 0, 0, 0, 12, 0, 12, -12, -12⟩,
          ⟨41, 0, 0, 0, 0, 0, 12, 0, 12, -12, -24⟩,
          ⟨42, 0, 0, 0, 0, 0, 12, 0, 12, -12, -36⟩,
          ⟨43, 0, 0, 0, 0, 0, 0, 0, 0, 0, -36⟩] := by
      rw [evalBuy] at h
      exact (Option.some.inj h).symm
    subst hrows
    have H := C6_housing_boundaries pBuy [] _ (16777216/16777215 : ℚ) rfl
      (by norm_num [monthlyMortgage, pBuy, show (24 : ℤ).toNat = 24 from rfl]) h 1 (by norm_num)
    have H1 := H.1 rfl
    simp only [Option.getD_some]
    exact H1

/-- The branch-selected, un-truncated real housing amount underlying
`calc_housing_expense` (each branch of the source wraps exactly this
quantity in `int(...)`; the paid-off branch is the constant 0). -/
def housingReal (p : Params) (mm : ℚ) (age : ℤ) : ℚ :=
  match p.rent_or_buy with
  | .rent => p.monthly_rent * 12
  | .buy =>
    if age < p.buy_age then p.monthly_rent * 12
    else if age = p.buy_age then p.down_payment + mm * 12
    else if p.buy_age < age ∧ age < p.buy_age + p.loan_term then mm * 12
    else 0

theorem calc_housing_eq_pyInt_real (p : Params) (mm : ℚ) (age : ℤ) :
    calc_housing_expense age p.rent_or_buy p.monthly_rent p.buy_age
      p.down_payment mm p.loan_term = pyInt (housingReal p mm age) := by
  unfold calc_housing_expense housingReal
  cases p.rent_or_buy
  · rfl
  · simp only
    split_ifs with h1 h2 h3
    · rfl
    · rfl
    · rfl
    · exact pyInt_zero.symm

/-- C9: in every row the integer columns are the truncations toward zero
of the corresponding un-truncated real quantities evaluated on the
engine's running state (`salaryAt`/`assetsAt`), `total_expense` is the
truncation of the inflation-compounded base expense plus the truncation
of the one-time amount, and `cumulative_balance` is stored as the exact
un-truncated value of the asset-update formula. -/
theorem C9_truncation (p : Params) (l : List Entry) (rows : List Row) (mm : ℚ)
    (hmm : monthlyMortgage p.loan_amount p.loan_term p.loan_rate = some mm)
    (h : calculate_retirement_cashflow p l = some rows)
    (i : ℕ) (hi : i < rows.length) :
    (rows.get ⟨i, hi⟩).salary_income =
      pyInt (if (p.current_age + i : ℤ) ≤ p.retirement_age
        then salaryAt p i else 0) ∧
    (rows.get ⟨i, hi⟩).investment_income =
      pyInt (if 0 < assetsAt p (lumpsumMapOf p l) mm i
        then assetsAt p (lumpsumMapOf p l) mm i * (p.investment_return / 100)
        else 0) ∧
    (rows.get ⟨i, hi⟩).pension_income =
      pyInt (if p.retirement_age < (p.current_age + i : ℤ)
        then p.retirement_pension * 12 else 0) ∧
    (rows.get ⟨i, hi⟩).living_expense = pyInt (p.monthly_expense * 12) ∧
    (rows.get ⟨i, hi⟩).housing_expense =
      pyInt (housingReal p mm (p.current_age + i)) ∧
    (rows.get ⟨i, hi⟩).total_expense =
      pyInt (baseExpense p mm (p.current_age + i) i) +
        pyInt (lumpsumMapOf p l (p.current_age + i)) ∧
    (rows.get ⟨i, hi⟩).cumulative_balance =
      ((assetsAt p (lumpsumMapOf p l) mm i +
          ((rows.get ⟨i, hi⟩).annual_balance : ℚ)) *
        (1 + p.investment_return / 100)) / (1 + p.inflation_rate / 100) := by
  obtain ⟨mm2, hmm2, hg⟩ := calculate_get p l rows h i hi
  have hmmeq : mm = mm2 := by
    rw [hmm] at hmm2
    exact Option.some.inj hmm2
  subst hmmeq
  rw [hg]
  refine ⟨?_, ?_, ?_, rfl, calc_housing_eq_pyInt_real p mm _, rfl, rfl⟩
  · show salaryIncome p (p.current_age + i) (salaryAt p i) = _
    unfold salaryIncome
    split_ifs
    · rfl
    · exact pyInt_zero.symm
  · show investmentIncome p (assetsAt p (lumpsumMapOf p l) mm i) = _
    unfold investmentIncome
    split_ifs
    · rfl
    · exact pyInt_zero.symm
  · show pensionIncome p (p.current_age + i) = _
    unfold pensionIncome
    split_ifs
    · rfl
    · exact pyInt_zero.symm

theorem C9_truncation_witness :
    (((calculate_retirement_cashflow pRent []).getD []).getD 0
      default).living_expense = pyInt (pRent.monthly_expense * 12) := by
  cases h : calculate_retirement_cashflow pRent [] with
  | none => rw [evalRent] at h; exact Option.noConfusion h
  | some rows =>
    have hrows : rows = [⟨40, 10, 0, 0, 10, 12, 12, 0, 24, -14, -9⟩,
          ⟨41, 10, 0, 0, 10, 12, 12, 0, 24, -14, -23⟩,
          ⟨42, 0, 0, 24, 24, 12, 12, 0, 24, 0, -23⟩] := by
      rw [evalRent] at h
      exact (Option.some.inj h).symm
    subst hrows
    have H := C9_truncation pRent [] _ 0 (by norm_num [monthlyMortgage, pRent])
      h 0 (by norm_num)
    have H4 := H.2.2.2.1
    simp only [Option.getD_some]
    exact H4

/-! ### Frame property: the input list is never mutated -/

/-- State-passing rendition of the dict-building loop of lines 89–98: the
`lumpsum_list` is threaded through as mutable state.  Each iteration
reads `entry` and writes only the separate `lumpsum_map`, so the list is
reassembled entry by entry exactly as read. -/
def buildLumpsumMap_st (current_age : ℤ) :
    List Entry → (ℤ → ℚ) → ((ℤ → ℚ) × List Entry)
  | [], m => (m, [])
  | e :: rest, m =>
    let m2 := if e.age < current_age ∨ e.amount = 0 then m
      else Function.update m e.age (m e.age + e.amount)
    let r := buildLumpsumMap_st current_age rest m2
    (r.1, e :: r.2)

/-- State-passing rendition of `calculate_retirement_cashflow`, returning
the (potentially mutated) `lumpsum_list` next to the result. -/
def calculate_retirement_cashflow_st (p : Params) (lumpsum_list : List Entry) :
    Option (List Row) × List Entry :=
  match monthlyMortgage p.loan_amount p.loan_term p.loan_rate with
  | none => (none, lumpsum_list)
  | some mm =>
    if 1 + p.inflation_rate / 100 = 0 ∧ p.current_age ≤ p.expected_lifespan then
      (none, (buildLumpsumMap_st p.current_age lumpsum_list (fun _ => 0)).2)
    else
      (some (runLoop p (buildLumpsumMap_st p.current_age lumpsum_list (fun _ => 0)).1
          mm (numAges p) 0 p.current_age p.annual_salary p.investable_assets),
        (buildLumpsumMap_st p.current_age lumpsum_list (fun _ => 0)).2)

theorem buildLumpsumMap_st_spec (ca : ℤ) :
    ∀ (l : List Entry) (m : ℤ → ℚ),
      buildLumpsumMap_st ca l m = (buildLumpsumMap ca l m, l) := by
  intro l
  induction l with
  | nil => intro m; rfl
  | cons e rest ih =>
    intro m
    simp only [buildLumpsumMap_st, buildLumpsumMap, ih]
    by_cases he : e.age < ca ∨ e.amount = 0
    · rw [if_pos he, if_pos he]
    · rw [if_neg he, if_neg he]

/-- C10: the projection never mutates its `lumpsum_list` argument — the
threaded list coming back from the state-passing rendition is the input
list itself, and the computed result is the one of the direct
function. -/
theorem C10_no_mutation (p : Params) (l : List Entry) :
    (calculate_retirement_cashflow_st p l).2 = l ∧
    (calculate_retirement_cashflow_st p l).1 =
      calculate_retirement_cashflow p l := by
  unfold calculate_retirement_cashflow_st calculate_retirement_cashflow
  cases hmm : monthlyMortgage p.loan_amount p.loan_term p.loan_rate with
  | none => exact ⟨rfl, rfl⟩
  | some mm =>
    rw [buildLumpsumMap_st_spec]
    constructor
    · split_ifs <;> rfl
    · split_ifs <;> rfl
